import Mathlib

/-!
Verification development for `qrtool.py`, a command-line QR code generator.

The Python source is shallowly embedded: pure arithmetic and control flow are
translated directly; the PIL image library and the file system, which the tool
uses as external collaborators, appear as abstract operation records with the
size laws that PIL documents; a decode failure (a raised exception that the
function does not catch) is modelled as an `Except.error` result.
-/

/-- An RGB colour: three integer channels, as Python's int triples. -/
abbrev RGB := Int × Int × Int

/-- The module-level palette dict `PLEX_PALETTE` (qrtool.py lines 28-38), in
its insertion order, which Python dicts preserve during iteration. -/
def PLEX_PALETTE : List (String × RGB) := [
  ("lavender", (227, 227, 237)),
  ("atomic_tangerine", (236, 121, 63)),
  ("sandy_brown", (242, 160, 102)),
  ("sunlit_clay", (234, 180, 103)),
  ("soft_periwinkle", (166, 144, 249)),
  ("bright_lavender", (186, 128, 226)),
  ("deep_lilac", (111, 69, 188)),
  ("bg_main", (244, 244, 251)),
  ("bg_elevated", (248, 247, 255))
]

/-- Python `s.startswith(pre)` for ASCII prefixes: the characters of `pre`
are an initial segment of the characters of `s`. -/
def py_startswith (s pre : String) : Bool := pre.data.isPrefixOf s.data

/-- The squared Euclidean distance `dr*dr + dg*dg + db*db` computed in the
loop body of `nearest_palette_colour` (qrtool.py lines 56-59). -/
def sqDist (a b : RGB) : Int :=
  (a.1 - b.1) * (a.1 - b.1) + (a.2.1 - b.2.1) * (a.2.1 - b.2.1) +
    (a.2.2 - b.2.2) * (a.2.2 - b.2.2)

/-- One iteration of the loop of `nearest_palette_colour` (qrtool.py lines
52-63): state is (best_name, best_rgb, best_dist), where `none` stands for
the initial `float("inf")`, against which any distance compares strictly
smaller. Entries whose name starts with `bg_` are skipped (`continue`). -/
def nstep (rgb : RGB) (st : String × RGB × Option Int) (e : String × RGB) :
    String × RGB × Option Int :=
  if py_startswith e.1 "bg_" then st
  else
    let d := sqDist rgb e.2
    match st.2.2 with
    | none => (e.1, e.2, some d)
    | some bdv => if d < bdv then (e.1, e.2, some d) else st

/-- `nearest_palette_colour(rgb)` (qrtool.py lines 45-65): fold the loop over
the palette from the initial state `("deep_lilac", PLEX_PALETTE["deep_lilac"],
inf)` and return `(best_name, best_rgb)`. -/
def nearest_palette_colour (rgb : RGB) : String × RGB :=
  let st := PLEX_PALETTE.foldl (nstep rgb)
    ("deep_lilac", ((111 : Int), (69 : Int), (188 : Int)), none)
  (st.1, st.2.1)

/-- The candidate entries: palette entries whose name does not start with
`bg_`, in palette insertion order — exactly those the loop does not skip. -/
def candidates : List (String × RGB) :=
  PLEX_PALETTE.filter (fun e => !(py_startswith e.1 "bg_"))

example : nearest_palette_colour (0, 0, 0) = ("deep_lilac", (111, 69, 188)) := by decide

example : candidates.length = 7 := by decide

/-- Skipped entries leave the loop state untouched, so folding the loop over
the whole palette equals folding it over the candidate entries only. -/
lemma foldl_nstep_eq_filter (rgb : RGB) (l : List (String × RGB)) :
    ∀ st : String × RGB × Option Int,
      l.foldl (nstep rgb) st =
        (l.filter (fun e => !(py_startswith e.1 "bg_"))).foldl (nstep rgb) st := by
  induction l with
  | nil => intro st; rfl
  | cons a l ih =>
    intro st
    by_cases h : py_startswith a.1 "bg_"
    · have hst : nstep rgb st a = st := by simp [nstep, h]
      simp [List.foldl_cons, List.filter_cons, h, hst, ih]
    · simp [List.foldl_cons, List.filter_cons, h, ih]

/-- Behaviour of the loop of `nearest_palette_colour` from a state with a
finite best distance, over a list with no skipped entries: either no entry
beats the incumbent (state unchanged, incumbent distance minimal), or the
result is the first entry attaining a strictly smaller, minimal distance
— every earlier entry is strictly farther, every later entry no closer. -/
lemma nstep_fold_spec (rgb : RGB) (l : List (String × RGB)) :
    ∀ (bn : String) (bc : RGB) (bd : Int),
      (∀ e ∈ l, py_startswith e.1 "bg_" = false) →
      (l.foldl (nstep rgb) (bn, bc, some bd) = (bn, bc, some bd) ∧
        ∀ e ∈ l, bd ≤ sqDist rgb e.2) ∨
      (∃ l1 e l2,
        l = l1 ++ e :: l2 ∧
        l.foldl (nstep rgb) (bn, bc, some bd) = (e.1, e.2, some (sqDist rgb e.2)) ∧
        sqDist rgb e.2 < bd ∧
        (∀ x ∈ l1, sqDist rgb e.2 < sqDist rgb x.2) ∧
        (∀ x ∈ l2, sqDist rgb e.2 ≤ sqDist rgb x.2)) := by
  induction l with
  | nil => intro bn bc bd _; left; simp
  | cons a l ih =>
    intro bn bc bd hbg
    have ha : py_startswith a.1 "bg_" = false := hbg a (List.mem_cons_self a l)
    have hl : ∀ e ∈ l, py_startswith e.1 "bg_" = false :=
      fun e he => hbg e (List.mem_cons_of_mem a he)
    by_cases hd : sqDist rgb a.2 < bd
    · have hstep : nstep rgb (bn, bc, some bd) a = (a.1, a.2, some (sqDist rgb a.2)) := by
        simp [nstep, ha, hd]
      rcases ih a.1 a.2 (sqDist rgb a.2) hl with ⟨heq, hall⟩ | ⟨l1, e, l2, hsp, hf, hlt, hpre, hsuf⟩
      · right
        refine ⟨[], a, l, by simp, ?_, hd, by simp, hall⟩
        simpa [List.foldl_cons, hstep] using heq
      · right
        refine ⟨a :: l1, e, l2, by simp [hsp], ?_, hlt.trans hd, ?_, hsuf⟩
        · simpa [List.foldl_cons, hstep] using hf
        · intro x hx
          rcases List.mem_cons.mp hx with rfl | hx
          · exact hlt
          · exact hpre x hx
    · have hstep : nstep rgb (bn, bc, some bd) a = (bn, bc, some bd) := by
        simp [nstep, ha, hd]
      have hba : bd ≤ sqDist rgb a.2 := le_of_not_lt hd
      rcases ih bn bc bd hl with ⟨heq, hall⟩ | ⟨l1, e, l2, hsp, hf, hlt, hpre, hsuf⟩
      · left
        constructor
        · simpa [List.foldl_cons, hstep] using heq
        · intro e he
          rcases List.mem_cons.mp he with rfl | he
          · exact hba
          · exact hall e he
      · right
        refine ⟨a :: l1, e, l2, by simp [hsp], ?_, hlt, ?_, hsuf⟩
        · simpa [List.foldl_cons, hstep] using hf
        · intro x hx
          rcases List.mem_cons.mp hx with rfl | hx
          · exact hlt.trans_le hba
          · exact hpre x hx

/-- The candidate list starts with lavender; spelling it out once. -/
lemma candidates_eq :
    candidates = ("lavender", ((227 : Int), (227 : Int), (237 : Int))) ::
      [("atomic_tangerine", (236, 121, 63)),
       ("sandy_brown", (242, 160, 102)),
       ("sunlit_clay", (234, 180, 103)),
       ("soft_periwinkle", (166, 144, 249)),
       ("bright_lavender", (186, 128, 226)),
       ("deep_lilac", (111, 69, 188))] := by decide

/-- Characterisation of `nearest_palette_colour`: the returned pair is a
candidate entry, splits the candidate list so that every earlier candidate is
strictly farther from the input, and its distance is minimal over all
candidates. -/
lemma nearest_split (rgb : RGB) :
    ∃ l1 l2,
      candidates = l1 ++ nearest_palette_colour rgb :: l2 ∧
      (∀ x ∈ l1, sqDist rgb (nearest_palette_colour rgb).2 < sqDist rgb x.2) ∧
      (∀ e ∈ candidates, sqDist rgb (nearest_palette_colour rgb).2 ≤ sqDist rgb e.2) := by
  have hnb : ∀ e ∈ candidates.tail, py_startswith e.1 "bg_" = false := by decide
  have hfold : PLEX_PALETTE.foldl (nstep rgb)
      ("deep_lilac", ((111 : Int), (69 : Int), (188 : Int)), none) =
      candidates.foldl (nstep rgb)
      ("deep_lilac", ((111 : Int), (69 : Int), (188 : Int)), none) :=
    foldl_nstep_eq_filter rgb PLEX_PALETTE _
  set c0 : String × RGB := ("lavender", ((227 : Int), (227 : Int), (237 : Int))) with hc0
  set rest : List (String × RGB) :=
      [("atomic_tangerine", (236, 121, 63)),
       ("sandy_brown", (242, 160, 102)),
       ("sunlit_clay", (234, 180, 103)),
       ("soft_periwinkle", (166, 144, 249)),
       ("bright_lavender", (186, 128, 226)),
       ("deep_lilac", (111, 69, 188))] with hrest
  have hcand : candidates = c0 :: rest := candidates_eq
  have hrestnb : ∀ e ∈ rest, py_startswith e.1 "bg_" = false := by decide
  have hstep0 : nstep rgb ("deep_lilac", ((111 : Int), (69 : Int), (188 : Int)), none) c0 =
      (c0.1, c0.2, some (sqDist rgb c0.2)) := by
    simp [nstep, hc0, py_startswith]
  have hchain : PLEX_PALETTE.foldl (nstep rgb)
      ("deep_lilac", ((111 : Int), (69 : Int), (188 : Int)), none) =
      rest.foldl (nstep rgb) (c0.1, c0.2, some (sqDist rgb c0.2)) := by
    rw [hfold, hcand, List.foldl_cons, hstep0]
  rcases nstep_fold_spec rgb rest c0.1 c0.2 (sqDist rgb c0.2) hrestnb with
    ⟨heq, hall⟩ | ⟨l1, e, l2, hsp, hf, hlt, hpre, hsuf⟩
  · -- no later candidate beats lavender
    have hres : nearest_palette_colour rgb = (c0.1, c0.2) := by
      unfold nearest_palette_colour
      rw [hchain, heq]
    refine ⟨[], rest, ?_, by simp, ?_⟩
    · rw [hcand, hres]; simp
    · intro e he
      rw [hres]
      rw [hcand] at he
      rcases List.mem_cons.mp he with rfl | he
      · exact le_refl _
      · exact hall e he
  · -- first strict improvement e wins
    have hres : nearest_palette_colour rgb = (e.1, e.2) := by
      unfold nearest_palette_colour
      rw [hchain, hf]
    refine ⟨c0 :: l1, l2, ?_, ?_, ?_⟩
    · rw [hcand, hsp, hres]; simp
    · intro x hx
      rw [hres]
      rcases List.mem_cons.mp hx with rfl | hx
      · exact hlt
      · exact hpre x hx
    · intro x hx
      rw [hres]
      rw [hcand, hsp] at hx
      rcases List.mem_cons.mp hx with rfl | hx
      · exact le_of_lt hlt
      · rcases List.mem_append.mp hx with hx | hx
        · exact le_of_lt (hpre x hx)
        · rcases List.mem_cons.mp hx with rfl | hx
          · exact le_refl _
          · exact hsuf x hx

/-- C1: for every RGB triple, nearest-colour search never returns a surface
colour: the returned name does not start with `bg_` (in particular it is
neither `bg_main` nor `bg_elevated`), and the returned (name, colour) pair is
one of the stored candidate palette entries. -/
theorem nearest_never_returns_surface (rgb : RGB) :
    py_startswith (nearest_palette_colour rgb).1 "bg_" = false ∧
    (nearest_palette_colour rgb).1 ≠ "bg_main" ∧
    (nearest_palette_colour rgb).1 ≠ "bg_elevated" ∧
    nearest_palette_colour rgb ∈ candidates := by
  obtain ⟨l1, l2, hsp, -, -⟩ := nearest_split rgb
  have hmem : nearest_palette_colour rgb ∈ candidates := by
    rw [hsp]
    exact List.mem_append.mpr (Or.inr (List.mem_cons_self _ _))
  have h1 : ∀ e ∈ candidates, py_startswith e.1 "bg_" = false := by decide
  have h2 : ∀ e ∈ candidates, e.1 ≠ "bg_main" := by decide
  have h3 : ∀ e ∈ candidates, e.1 ≠ "bg_elevated" := by decide
  exact ⟨h1 _ hmem, h2 _ hmem, h3 _ hmem, hmem⟩

/-- C2: every candidate palette entry self-matches exactly: feeding a stored
candidate colour to the search returns that entry's own name and its exact
stored colour. -/
theorem nearest_self_match (e : String × RGB) (he : e ∈ candidates) :
    nearest_palette_colour e.2 = e := by
  revert he
  revert e
  decide

/-- Witness for C2 at the first candidate, lavender. -/
theorem nearest_self_match_witness :
    nearest_palette_colour ((227 : Int), (227 : Int), (237 : Int)) =
      ("lavender", ((227 : Int), (227 : Int), (237 : Int))) :=
  nearest_self_match ("lavender", ((227 : Int), (227 : Int), (237 : Int))) (by decide)

/-- C3: the search minimises the squared Euclidean distance over the
candidate entries, and on ties the candidate occurring first in the palette's
insertion order wins: the candidate list splits around the returned entry with
every earlier candidate strictly farther and no candidate closer. -/
theorem nearest_minimises_with_first_tie_break (rgb : RGB) :
    ∃ l1 l2,
      candidates = l1 ++ nearest_palette_colour rgb :: l2 ∧
      (∀ x ∈ l1, sqDist rgb (nearest_palette_colour rgb).2 < sqDist rgb x.2) ∧
      (∀ e ∈ candidates, sqDist rgb (nearest_palette_colour rgb).2 ≤ sqDist rgb e.2) :=
  nearest_split rgb

/-- Python `str.isspace` / the whitespace set `str.strip()` removes: ASCII
space, tab, newline, vertical tab, form feed, carriage return, the C1 and
Unicode space code points. -/
def py_isspace (c : Char) : Bool :=
  let n := c.toNat
  n == 0x20 || (0x9 ≤ n && n ≤ 0xD) || (0x1C ≤ n && n ≤ 0x1F) || n == 0x85 ||
    n == 0xA0 || n == 0x1680 || (0x2000 ≤ n && n ≤ 0x200A) || n == 0x2028 ||
    n == 0x2029 || n == 0x202F || n == 0x205F || n == 0x3000

/-- Python `s.strip()`: remove leading and trailing whitespace characters. -/
def py_strip (s : String) : String :=
  String.mk (((s.data.dropWhile py_isspace).reverse.dropWhile py_isspace).reverse)

/-- `prepare_data(raw, mode)` (qrtool.py lines 165-178): strip the raw text,
then dispatch on the mode string; `url` prefixes `https://` unless the text
already starts with `http://` or `https://`, `tel`/`email`/`sms` prefix their
scheme unconditionally, and any other mode (`auto`) passes the text through. -/
def prepare_data (raw : String) (mode : String) : String :=
  let t := py_strip raw
  if mode = "url" then
    if !(py_startswith t "http://" || py_startswith t "https://") then "https://" ++ t
    else t
  else if mode = "tel" then "tel:" ++ t
  else if mode = "email" then "mailto:" ++ t
  else if mode = "sms" then "sms:" ++ t
  else t

example : prepare_data " a.com " "url" = "https://a.com" := by decide

/-- C7: `prepare_data` strips leading/trailing whitespace first in every mode,
then prefixes `https://` in url mode unless the stripped text already starts
with `http://` or `https://`, prefixes `tel:` in tel mode, `mailto:` in email
mode, `sms:` in sms mode, and passes the stripped text through in auto mode;
the spec's five concrete examples evaluate as stated. -/
theorem prepare_data_modes :
    (∀ s, prepare_data s "url" =
      if py_startswith (py_strip s) "http://" || py_startswith (py_strip s) "https://"
      then py_strip s else "https://" ++ py_strip s) ∧
    (∀ s, prepare_data s "tel" = "tel:" ++ py_strip s) ∧
    (∀ s, prepare_data s "email" = "mailto:" ++ py_strip s) ∧
    (∀ s, prepare_data s "sms" = "sms:" ++ py_strip s) ∧
    (∀ s, prepare_data s "auto" = py_strip s) ∧
    prepare_data " https://a.com " "url" = "https://a.com" ∧
    prepare_data "a.com" "url" = "https://a.com" ∧
    prepare_data "+1555" "tel" = "tel:+1555" ∧
    prepare_data "a@b.com" "email" = "mailto:a@b.com" ∧
    prepare_data "x" "auto" = "x" := by
  refine ⟨?_, ?_, ?_, ?_, ?_, by decide, by decide, by decide, by decide, by decide⟩
  · intro s
    simp only [prepare_data, if_pos rfl]
    cases h : py_startswith (py_strip s) "http://" || py_startswith (py_strip s) "https://" <;>
      simp [h]
  · intro s; simp [prepare_data]
  · intro s; simp [prepare_data]
  · intro s; simp [prepare_data]
  · intro s; simp [prepare_data]

/-- C10: in tel, email and sms modes the scheme is prepended unconditionally,
even when the stripped text already carries it, so `tel:+1555` becomes
`tel:tel:+1555`; only url mode checks for an existing prefix, so an already
prefixed url is passed through unchanged. -/
theorem prepare_data_unconditional_schemes :
    (∀ s, prepare_data s "tel" = "tel:" ++ py_strip s) ∧
    (∀ s, prepare_data s "email" = "mailto:" ++ py_strip s) ∧
    (∀ s, prepare_data s "sms" = "sms:" ++ py_strip s) ∧
    prepare_data "tel:+1555" "tel" = "tel:tel:+1555" ∧
    prepare_data "mailto:a@b.com" "email" = "mailto:mailto:a@b.com" ∧
    prepare_data "sms:+1555" "sms" = "sms:sms:+1555" ∧
    prepare_data "https://a.com" "url" = "https://a.com" := by
  refine ⟨?_, ?_, ?_, by decide, by decide, by decide, by decide⟩
  · intro s; simp [prepare_data]
  · intro s; simp [prepare_data]
  · intro s; simp [prepare_data]

/-- One RGBA pixel as `img.getdata()` yields it: four 8-bit channels. -/
structure RGBA_Pixel where
  r : Nat
  g : Nat
  b : Nat
  a : Nat
deriving DecidableEq

/-- Two uppercase hex digits, the `"{:02X}"` field of `rgb_to_hex` for a
channel value in 0..255. -/
def hex2 (n : Nat) : String :=
  let dig := fun k => if k < 10 then Char.ofNat (48 + k) else Char.ofNat (55 + k)
  String.mk [dig (n / 16 % 16), dig (n % 16)]

/-- `rgb_to_hex(rgb)` (qrtool.py lines 41-42): `"#RRGGBB"` in uppercase hex. -/
def rgb_to_hex (c : RGB) : String :=
  "#" ++ hex2 c.1.toNat ++ hex2 c.2.1.toNat ++ hex2 c.2.2.toNat

example : rgb_to_hex (111, 69, 188) = "#6F45BC" := by decide

/-- One iteration of the averaging loop of `infer_qr_colours_from_logo`
(qrtool.py lines 86-95) over state (total_r, total_g, total_b, count):
near-transparent pixels (`a < 32`) and very bright whites (all colour
channels above 245) are skipped. -/
def sample_step (st : Nat × Nat × Nat × Nat) (p : RGBA_Pixel) : Nat × Nat × Nat × Nat :=
  if p.a < 32 then st
  else if p.r > 245 ∧ p.g > 245 ∧ p.b > 245 then st
  else (st.1 + p.r, st.2.1 + p.g, st.2.2.1 + p.b, st.2.2.2 + 1)

/-- `infer_qr_colours_from_logo(logo_path)` (qrtool.py lines 68-107) on the
decoded pixel data. `none` stands for the caught `Image.open` failure, which
falls back to classic black/white; `some pixels` is the RGBA pixel list of the
decoded logo (after PIL's 64x64 LANCZOS downscale, an external resampling
step taken as given). With zero surviving pixels the fill is the fixed
`deep_lilac` fallback and no division happens; otherwise the channel sums are
floor-divided by the survivor count and snapped to the nearest palette
colour. The background is always `bg_main`. -/
def infer_qr_colours_from_logo (decoded : Option (List RGBA_Pixel)) : String × String :=
  match decoded with
  | none => ("#000000", "#FFFFFF")
  | some pixels =>
    let st := pixels.foldl sample_step (0, 0, 0, 0)
    let count := st.2.2.2
    let fill_rgb : RGB :=
      if count = 0 then (111, 69, 188)
      else
        let avg : RGB := ((st.1 / count : Nat), (st.2.1 / count : Nat), (st.2.2.1 / count : Nat))
        (nearest_palette_colour avg).2
    (rgb_to_hex fill_rgb, rgb_to_hex (244, 244, 251))

/-- A pixel that the filter skips adds nothing to the running totals. -/
lemma sample_step_skips (st : Nat × Nat × Nat × Nat) (p : RGBA_Pixel)
    (h : p.a < 32 ∨ (p.r > 245 ∧ p.g > 245 ∧ p.b > 245)) : sample_step st p = st := by
  rcases h with h | h
  · simp [sample_step, h]
  · rcases h with ⟨h1, h2, h3⟩
    by_cases ha : p.a < 32
    · simp [sample_step, ha]
    · simp [sample_step, ha, h1, h2, h3]

/-- Folding the averaging loop over pixels that are all skipped leaves the
totals and the survivor count at their initial values. -/
lemma sample_fold_all_skipped (pixels : List RGBA_Pixel)
    (h : ∀ p ∈ pixels, p.a < 32 ∨ (p.r > 245 ∧ p.g > 245 ∧ p.b > 245)) :
    ∀ st, pixels.foldl sample_step st = st := by
  induction pixels with
  | nil => intro st; rfl
  | cons p l ih =>
    intro st
    rw [List.foldl_cons, sample_step_skips st p (h p (List.mem_cons_self p l))]
    exact ih (fun q hq => h q (List.mem_cons_of_mem p hq)) st

/-- C4: when every pixel of the decoded logo fails the filter — alpha below
the translucency threshold 32, or all colour channels above the brightness
threshold 245 (e.g. a fully transparent or fully white logo) — the survivor
count is zero, the division branch is never taken, and the function returns
the fixed fallback pair: deep_lilac `#6F45BC` as fill, `bg_main` `#F4F4FB`
as background. -/
theorem infer_colours_all_filtered_fallback (pixels : List RGBA_Pixel)
    (h : ∀ p ∈ pixels, p.a < 32 ∨ (p.r > 245 ∧ p.g > 245 ∧ p.b > 245)) :
    infer_qr_colours_from_logo (some pixels) = ("#6F45BC", "#F4F4FB") := by
  have h0 : pixels.foldl sample_step (0, 0, 0, 0) = (0, 0, 0, 0) :=
    sample_fold_all_skipped pixels h (0, 0, 0, 0)
  simp only [infer_qr_colours_from_logo, h0]
  decide

/-- Witness for C4: a two-pixel logo, one fully transparent and one fully
white, falls back to deep_lilac on bg_main. -/
theorem infer_colours_all_filtered_fallback_witness :
    infer_qr_colours_from_logo (some [⟨0, 0, 0, 0⟩, ⟨255, 255, 255, 255⟩]) =
      ("#6F45BC", "#F4F4FB") :=
  infer_colours_all_filtered_fallback [⟨0, 0, 0, 0⟩, ⟨255, 255, 255, 255⟩] (by decide)

/-- A fill argument to PIL's `rounded_rectangle`: an RGBA tuple or a colour
string (hex or named). -/
inductive FillSpec
| rgba (r g b a : Nat)
| named (colour : String)

/-- The PIL image operations the tool composes, over an abstract bitmap type:
`convert("RGBA")`, `.size`, `Image.new`, `ImageDraw.rounded_rectangle`,
`alpha_composite` at a pixel offset, and `thumbnail` (longest-side fit). -/
structure PILOps (B : Type) where
  convertRGBA : B → B
  size : B → Nat × Nat
  newRGBA : Nat × Nat → Nat × Nat × Nat × Nat → B
  roundedRect : B → Nat × Nat × Nat × Nat → Nat → FillSpec → B
  alphaComposite : B → B → Int × Int → B
  thumbnail : B → Nat × Nat → B

/-- Size laws that PIL documents for these operations: conversion, drawing
and compositing keep a bitmap's dimensions, and `Image.new` produces the
requested dimensions. -/
structure LawfulPIL {B : Type} (ops : PILOps B) : Prop where
  size_convert : ∀ b, ops.size (ops.convertRGBA b) = ops.size b
  size_new : ∀ d c, ops.size (ops.newRGBA d c) = d
  size_rect : ∀ b box r f, ops.size (ops.roundedRect b box r f) = ops.size b
  size_comp : ∀ b o p, ops.size (ops.alphaComposite b o p) = ops.size b

/-- The file system and image codec as the tool sees them: `Path.is_file`
and `Image.open(...).convert("RGBA")`, the latter returning `none` when the
file cannot be decoded (in Python, a raised exception). -/
structure ImageCodec (B : Type) where
  isFile : String → Bool
  openRGBA : String → Option B

/-- `overlay_logo_with_container(qr_image, logo_path)` (qrtool.py lines
181-223). A missing path returns the input bitmap unchanged with a warning
(lines 188-190). `Image.open` on line 211 is not wrapped in try/except, so a
file that exists but cannot be decoded raises: modelled as `Except.error`.
The float products `int(qr_w*0.26)`, `int(cs*0.16)`, `int(cs*0.06)` are
embedded as exact truncated rationals `26*w/100`, `16*cs/100`, `6*cs/100`;
the IEEE double factors differ from these rationals by under 1e-16
relatively, which cannot move the truncation for any realistic bitmap size.
Python's floor division `//` on possibly negative ints is `Int.fdiv`. -/
def overlay_logo_with_container {B : Type} (ops : PILOps B) (fs : ImageCodec B)
    (qr_image : B) (logo_path : String) : Except String (List String × B) :=
  if fs.isFile logo_path = false then
    Except.ok (["[WARN] Logo path does not exist: " ++ logo_path], qr_image)
  else
    let qr2 := ops.convertRGBA qr_image
    let qr_w := (ops.size qr2).1
    let qr_h := (ops.size qr2).2
    let container_size := 26 * qr_w / 100
    let container0 := ops.newRGBA (container_size, container_size) (0, 0, 0, 0)
    let radius := 16 * container_size / 100
    let container := ops.roundedRect container0 (0, 0, container_size, container_size)
      radius (FillSpec.rgba 255 255 255 255)
    let c_x := Int.fdiv ((qr_w : Int) - (container_size : Int)) 2
    let c_y := Int.fdiv ((qr_h : Int) - (container_size : Int)) 2
    let qr3 := ops.alphaComposite qr2 container (c_x, c_y)
    match fs.openRGBA logo_path with
    | none => Except.error ("cannot identify image file: " ++ logo_path)
    | some logo0 =>
      let margin := 6 * container_size / 100
      let logo := ops.thumbnail logo0 (container_size - 2 * margin, container_size - 2 * margin)
      let logo_w := (ops.size logo).1
      let logo_h := (ops.size logo).2
      let l_x := c_x + Int.fdiv ((container_size : Int) - (logo_w : Int)) 2
      let l_y := c_y + Int.fdiv ((container_size : Int) - (logo_h : Int)) 2
      Except.ok ([], ops.alphaComposite qr3 logo (l_x, l_y))

/-- `add_modern_frame(qr_image, bg)` (qrtool.py lines 226-250): pad the
bitmap by `int(qr_w*0.03)` per side (embedded as the exact truncated rational
`3*w/100`, which the IEEE double product cannot disturb for realistic sizes),
draw a rounded card in the background colour, and composite the QR centered
at (padding, padding). -/
def add_modern_frame {B : Type} (ops : PILOps B) (qr_image : B) (bg : String) : B :=
  let qr2 := ops.convertRGBA qr_image
  let qr_w := (ops.size qr2).1
  let qr_h := (ops.size qr2).2
  let padding := 3 * qr_w / 100
  let frame_w := qr_w + 2 * padding
  let frame_h := qr_h + 2 * padding
  let canvas0 := ops.newRGBA (frame_w, frame_h) (0, 0, 0, 0)
  let radius := min frame_w frame_h / 10
  let canvas := ops.roundedRect canvas0 (0, 0, frame_w, frame_h) radius (FillSpec.named bg)
  ops.alphaComposite canvas qr2 ((padding : Int), (padding : Int))

/-- A concrete instantiation where a bitmap is represented by its dimensions
alone: enough to evaluate every size computation of the compositing code. -/
def dimOps : PILOps (Nat × Nat) where
  convertRGBA := fun b => b
  size := fun b => b
  newRGBA := fun d _ => d
  roundedRect := fun b _ _ _ => b
  alphaComposite := fun b _ _ => b
  thumbnail := fun b box => (min b.1 box.1, min b.2 box.2)

lemma lawful_dimOps : LawfulPIL dimOps :=
  ⟨fun _ => rfl, fun _ _ => rfl, fun _ _ _ _ => rfl, fun _ _ _ => rfl⟩

/-- A codec for which every path is a missing file. -/
def missingCodec : ImageCodec (Nat × Nat) := ⟨fun _ => false, fun _ => none⟩

/-- A codec for which every path is an existing file that fails to decode. -/
def corruptCodec : ImageCodec (Nat × Nat) := ⟨fun _ => true, fun _ => none⟩

/-- C6: for every QR bitmap and every logo path that is not an existing file,
the overlay returns the input bitmap itself — unchanged, hence
pixel-identical — together with the warning diagnostic. -/
theorem overlay_missing_logo_identity {B : Type} (ops : PILOps B) (fs : ImageCodec B)
    (qr : B) (path : String) (h : fs.isFile path = false) :
    overlay_logo_with_container ops fs qr path =
      Except.ok (["[WARN] Logo path does not exist: " ++ path], qr) := by
  simp [overlay_logo_with_container, h]

/-- Witness for C6 at a concrete bitmap and codec. -/
theorem overlay_missing_logo_identity_witness :
    overlay_logo_with_container dimOps missingCodec ((290, 290) : Nat × Nat) "logo.png" =
      Except.ok (["[WARN] Logo path does not exist: " ++ "logo.png"],
        ((290, 290) : Nat × Nat)) :=
  overlay_missing_logo_identity dimOps missingCodec (290, 290) "logo.png" rfl

/-- Counterexample to C5: a logo file that exists but cannot be decoded does
not return the QR bitmap unchanged — the uncaught `Image.open` failure on
qrtool.py line 211 escapes `overlay_logo_with_container` and aborts the run. -/
theorem overlay_corrupt_logo_aborts :
    overlay_logo_with_container dimOps corruptCodec ((290, 290) : Nat × Nat) "corrupt.png" =
      Except.error ("cannot identify image file: " ++ "corrupt.png") ∧
    ∀ warnings,
      overlay_logo_with_container dimOps corruptCodec ((290, 290) : Nat × Nat) "corrupt.png" ≠
        Except.ok (warnings, ((290, 290) : Nat × Nat)) := by
  refine ⟨rfl, ?_⟩
  intro warnings
  simp [overlay_logo_with_container, corruptCodec]

/-- C5 as amended: when the logo path is not an existing file, the overlay is
skipped and the QR bitmap is returned unchanged with a warning; but when the
file exists and cannot be decoded, the failure is not absorbed — it
propagates out of the overlay and aborts the run. -/
theorem overlay_logo_failure_paths {B : Type} (ops : PILOps B) (fs : ImageCodec B)
    (qr : B) (path : String) :
    (fs.isFile path = false →
      overlay_logo_with_container ops fs qr path =
        Except.ok (["[WARN] Logo path does not exist: " ++ path], qr)) ∧
    (fs.isFile path = true → fs.openRGBA path = none →
      overlay_logo_with_container ops fs qr path =
        Except.error ("cannot identify image file: " ++ path)) := by
  constructor
  · intro h
    simp [overlay_logo_with_container, h]
  · intro h1 h2
    simp [overlay_logo_with_container, h1, h2]

/-- Counterexample to C9: on a 50x50 bitmap the code pads by
`int(50*0.03) = 1` per side and returns a 52x52 canvas, while the claimed
formula `50 + 2*round(50*0.03) = 50 + 2*round(1.5) = 54` misses it by 2,
outside the claimed one-pixel tolerance. -/
theorem add_modern_frame_round_claim_false :
    dimOps.size (add_modern_frame dimOps ((50, 50) : Nat × Nat) "#F4F4FB") = (52, 52) ∧
    (50 : Int) + 2 * round ((50 : ℚ) * (3 / 100)) = 54 ∧
    ¬ ((52 : Int) - 54 ≤ 1 ∧ (54 : Int) - 52 ≤ 1) := by
  refine ⟨rfl, ?_, by decide⟩
  norm_num [round_eq]

/-- C9 as amended: for every input bitmap of size (w, h), the framed canvas
measures exactly w + 2*p by h + 2*p where p = int(w*0.03) is the truncated
padding (the height uses the width's padding basis, as the code does), and
the converted input bitmap is composited at offset (p, p). -/
theorem add_modern_frame_dims {B : Type} (ops : PILOps B) (h : LawfulPIL ops)
    (qr : B) (bg : String) :
    ops.size (add_modern_frame ops qr bg) =
      ((ops.size qr).1 + 2 * (3 * (ops.size qr).1 / 100),
       (ops.size qr).2 + 2 * (3 * (ops.size qr).1 / 100)) ∧
    ∃ canvas, add_modern_frame ops qr bg =
      ops.alphaComposite canvas (ops.convertRGBA qr)
        (((3 * (ops.size qr).1 / 100 : Nat) : Int), ((3 * (ops.size qr).1 / 100 : Nat) : Int)) := by
  have hc : ops.size (ops.convertRGBA qr) = ops.size qr := h.size_convert qr
  constructor
  · simp only [add_modern_frame, h.size_comp, h.size_rect, h.size_new, hc]
  · refine ⟨ops.roundedRect
      (ops.newRGBA ((ops.size qr).1 + 2 * (3 * (ops.size qr).1 / 100),
        (ops.size qr).2 + 2 * (3 * (ops.size qr).1 / 100)) (0, 0, 0, 0))
      (0, 0, (ops.size qr).1 + 2 * (3 * (ops.size qr).1 / 100),
        (ops.size qr).2 + 2 * (3 * (ops.size qr).1 / 100))
      (min ((ops.size qr).1 + 2 * (3 * (ops.size qr).1 / 100))
        ((ops.size qr).2 + 2 * (3 * (ops.size qr).1 / 100)) / 10)
      (FillSpec.named bg), ?_⟩
    simp only [add_modern_frame, hc]

/-- Witness for the amended C9 at a concrete 100x100 bitmap: padding 3,
canvas 106x106, composite offset (3, 3). -/
theorem add_modern_frame_dims_witness :
    dimOps.size (add_modern_frame dimOps ((100, 100) : Nat × Nat) "#F4F4FB") = (106, 106) ∧
    ∃ canvas, add_modern_frame dimOps ((100, 100) : Nat × Nat) "#F4F4FB" =
      dimOps.alphaComposite canvas (dimOps.convertRGBA ((100, 100) : Nat × Nat)) (3, 3) := by
  have h := add_modern_frame_dims dimOps lawful_dimOps ((100, 100) : Nat × Nat) "#F4F4FB"
  simpa using h

/-- The two error-correction levels the tool chooses between. -/
inductive ErrorLevel
| M
| H
deriving DecidableEq

/-- Python truthiness of the optional `--logo` string argument: `None` and
the empty string are falsy, any other string truthy. -/
def py_truthy_str (s : Option String) : Bool :=
  match s with
  | none => false
  | some v => v != ""

/-- The error-correction choice of `generate_qr` (qrtool.py lines 276-278):
`ERROR_CORRECT_H if logo else ERROR_CORRECT_M` on the raw `--logo` value. -/
def error_level (logo : Option String) : ErrorLevel :=
  if py_truthy_str logo then ErrorLevel.H else ErrorLevel.M

/-- `logo_path = Path(logo) if logo else None` (qrtool.py line 264), keeping
only whether a path was produced. -/
def logo_path_opt (logo : Option String) : Option String :=
  if py_truthy_str logo then logo else none

/-- The guard `if logo_path is not None` under which `generate_qr` invokes
the overlay (qrtool.py line 291). -/
def overlay_is_invoked (logo : Option String) : Bool :=
  (logo_path_opt logo).isSome

/-- C8: the orchestrator picks the high error-correction level H exactly when
a logo will be overlaid, and the medium level M exactly when it will not —
both decisions test the same truthiness of the `--logo` argument before the
external encoder is invoked. -/
theorem error_level_matches_overlay (logo : Option String) :
    (error_level logo = ErrorLevel.H ↔ overlay_is_invoked logo = true) ∧
    (error_level logo = ErrorLevel.M ↔ overlay_is_invoked logo = false) := by
  cases logo with
  | none => simp [error_level, overlay_is_invoked, logo_path_opt, py_truthy_str]
  | some v =>
    by_cases h : v = ""
    · subst h
      simp [error_level, overlay_is_invoked, logo_path_opt, py_truthy_str]
    · simp [error_level, overlay_is_invoked, logo_path_opt, py_truthy_str, h]
